import Mathlib

/-!
Verification development for the MetaMask-fork transaction lifecycle
controller (src/app/scripts/controllers/transactions/index.js) and the
replace-by-fee gas helper (src/ui/hooks/useIncrementedGasFees.js).

The controller file is embedded directly.  Collaborators that are not part
of the provided sources (tx-state-manager, nonce-tracker, lib/util,
shared conversion utilities) are modelled from the specification; each such
definition carries a doc comment starting with "Modelled from the spec:".
External effects (network queries, the signer, the fee estimator, keccak)
are passed in as explicit oracle values so that every control path of the
embedded functions is a total function of its inputs.
-/

namespace MetamaskTx

/-- Transaction statuses (TRANSACTION_STATUSES in shared/constants/transaction). -/
inductive TxStatus where
  | unapproved
  | approved
  | signedStatus
  | submitted
  | confirmed
  | failed
  | dropped
  | rejected
  deriving DecidableEq

/-- Transaction classification types (TRANSACTION_TYPES). -/
inductive TxType where
  | sentEther
  | contractInteraction
  | deployContract
  | tokenMethodApprove
  | tokenMethodTransfer
  | tokenMethodTransferFrom
  | cancel
  | retry
  | swap
  deriving DecidableEq

/-- Error values thrown by the embedded controller code. -/
inductive TxErr where
  | nonContractCall
  | unauthorizedSender
  | unauthorizedOrigin
  | external (msg : String)
  deriving DecidableEq

/-- True when the string begins with the two characters 0x. -/
def has0x (s : String) : Bool :=
  match s.data with
  | '0' :: 'x' :: _ => true
  | _ => false

/-- Modelled from the spec: addHexPrefix from app/scripts/lib/util is not under
src/; it normalizes a hex string by prepending "0x" when missing. -/
def add0x (s : String) : String := if has0x s then s else "0x" ++ s

/-- Lowercase hex digits of a natural number, as produced by the JS
Number.prototype.toString(16). -/
def natToHex (n : Nat) : String := String.mk (Nat.toDigits 16 n)

/-- addHexPrefix(n.toString(16)) as used in approveTransaction. -/
def hexOfNat (n : Nat) : String := add0x (natToHex n)

/-- The txParams of a transaction record.  Presence of a field models the
JS property being defined; monetary quantities are wei naturals. -/
structure TxParams where
  from_ : String := ""
  to_ : Option String := none
  value : Option String := none
  data : Option String := none
  nonce : Option String := none
  gas : Option Nat := none
  gasPrice : Option Nat := none
  maxFeePerGas : Option Nat := none
  maxPriorityFeePerGas : Option Nat := none
  deriving DecidableEq

/-- Snapshot of the fee fields being replaced (previousGasParams). -/
structure PrevGasParams where
  gasPrice : Option Nat := none
  maxFeePerGas : Option Nat := none
  maxPriorityFeePerGas : Option Nat := none
  deriving DecidableEq

/-- The part of a transaction receipt the controller touches. -/
structure TxReceipt where
  gasUsed : String := "0x0"
  status : String := "0x1"
  deriving DecidableEq

/-- A transaction record (txMeta). -/
structure TxMeta where
  id : Nat
  status : TxStatus := .unapproved
  txParams : TxParams := {}
  type_ : TxType := .sentEther
  origin : String := ""
  loadingDefaults : Bool := true
  previousGasParams : Option PrevGasParams := none
  customNonceValue : Option Nat := none
  hash : Option String := none
  rawTx : Option String := none
  err : Option TxErr := none
  replacedBy : Option String := none
  txReceipt : Option TxReceipt := none
  baseFeePerGas : Option Nat := none
  estimatedBaseFee : Option Nat := none
  deriving DecidableEq

/-- The controller state the claims are about: the stored transaction list
(tx-state-manager's collection), the inProcessOfSigning set, and the id
counter used by generateTxMeta. -/
structure CtrlState where
  txs : List TxMeta := []
  inProcessOfSigning : List Nat := []
  nextId : Nat := 1
  deriving DecidableEq

/-- Rewrite the stored record with the given id through f (helper shared by
all the store mutation primitives below). -/
def updAt (txs : List TxMeta) (i : Nat) (f : TxMeta → TxMeta) : List TxMeta :=
  txs.map fun t => if t.id == i then f t else t

/-- Modelled from the spec: tx-state-manager's getTransaction is not under
src/; it returns the stored record with the given id, if any. -/
def getTransaction (s : CtrlState) (txId : Nat) : Option TxMeta :=
  s.txs.find? fun t => t.id == txId

/-- Modelled from the spec: tx-state-manager's updateTransaction is not under
src/; it replaces the stored record's fields with the given record, matched
by id. -/
def updateTransaction (s : CtrlState) (m : TxMeta) : CtrlState :=
  { s with txs := updAt s.txs m.id fun _ => m }

/-- Modelled from the spec: the tx-state-manager setTxStatus* primitives are
not under src/; they set the stored record's status. -/
def setTxStatus (s : CtrlState) (txId : Nat) (st : TxStatus) : CtrlState :=
  { s with txs := updAt s.txs txId fun t => { t with status := st } }

/-- Modelled from the spec: setTxStatusFailed is not under src/; per the spec
the record transitions to failed with the error attached.  This is the store
effect of the controller's own _failTransaction (metrics emission elided). -/
def failTransaction (s : CtrlState) (txId : Nat) (e : TxErr) : CtrlState :=
  { s with txs := updAt s.txs txId fun t => { t with status := .failed, err := some e } }

/-- setTxHash: records the hash on the stored record. -/
def setTxHash (s : CtrlState) (txId : Nat) (h : String) : CtrlState :=
  { s with txs := updAt s.txs txId fun t => { t with hash := some h } }

theorem updAt_cons (t : TxMeta) (ts : List TxMeta) (i : Nat) (f : TxMeta → TxMeta) :
    updAt (t :: ts) i f = (if t.id == i then f t else t) :: updAt ts i f := rfl

theorem find?_updAt_self (txs : List TxMeta) (i : Nat) (f : TxMeta → TxMeta)
    (hf : ∀ t : TxMeta, t.id = i → (f t).id = i) :
    (updAt txs i f).find? (fun t => t.id == i) =
      ((txs.find? fun t => t.id == i).map f) := by
  induction txs with
  | nil => rfl
  | cons t ts ih =>
    rw [updAt_cons]
    by_cases h : t.id = i
    · have hb : (t.id == i) = true := by simpa using h
      have hb2 : ((f t).id == i) = true := by simpa using hf t h
      rw [if_pos hb, List.find?_cons, List.find?_cons]
      simp only [hb, hb2]
      rfl
    · have hb : (t.id == i) = false := by simpa using h
      rw [if_neg (by simp [hb]), List.find?_cons, List.find?_cons]
      simp only [hb, ih]

theorem find?_updAt_ne (txs : List TxMeta) (i j : Nat) (f : TxMeta → TxMeta)
    (hij : i ≠ j) (hf : ∀ t : TxMeta, t.id = i → (f t).id = i) :
    (updAt txs i f).find? (fun t => t.id == j) = txs.find? fun t => t.id == j := by
  induction txs with
  | nil => rfl
  | cons t ts ih =>
    rw [updAt_cons]
    by_cases h : t.id = i
    · have hb : (t.id == i) = true := by simpa using h
      have h3 : ((f t).id == j) = false := by simp [hf t h, hij]
      have h4 : (t.id == j) = false := by simp [h, hij]
      rw [if_pos hb, List.find?_cons, List.find?_cons]
      simp only [h3, h4, ih]
    · have hb : (t.id == i) = false := by simpa using h
      rw [if_neg (by simp [hb]), List.find?_cons, List.find?_cons]
      by_cases hj : t.id = j
      · have hjb : (t.id == j) = true := by simpa using hj
        simp only [hjb]
      · have hjb : (t.id == j) = false := by simpa using hj
        simp only [hjb, ih]

theorem map_id_updAt (txs : List TxMeta) (i : Nat) (f : TxMeta → TxMeta)
    (hf : ∀ t : TxMeta, t.id = i → (f t).id = i) :
    (updAt txs i f).map TxMeta.id = txs.map TxMeta.id := by
  induction txs with
  | nil => rfl
  | cons t ts ih =>
    rw [updAt_cons, List.map_cons, List.map_cons, ih]
    by_cases h : t.id = i
    · have hb : (t.id == i) = true := by simpa using h
      rw [if_pos hb]
      simp [hf t h, h]
    · have hb : (t.id == i) = false := by simpa using h
      rw [if_neg (by simp [hb])]

theorem find?_eq_of_mem_nodup (txs : List TxMeta)
    (h : (txs.map TxMeta.id).Nodup) (t : TxMeta) (ht : t ∈ txs) :
    txs.find? (fun u => u.id == t.id) = some t := by
  induction txs with
  | nil => cases ht
  | cons u us ih =>
    simp only [List.map_cons, List.nodup_cons] at h
    rcases List.mem_cons.mp ht with rfl | hmem
    · simp [List.find?_cons]
    · have hne : u.id ≠ t.id := by
        intro he
        exact h.1 (he ▸ List.mem_map_of_mem TxMeta.id hmem)
      have h4 : (u.id == t.id) = false := by simpa using hne
      simp [List.find?_cons, h4, ih h.2 hmem]

theorem id_eq_of_getTransaction (s : CtrlState) (txId : Nat) (m : TxMeta)
    (h : getTransaction s txId = some m) : m.id = txId := by
  have := List.find?_some h
  simpa using this

theorem mem_of_getTransaction (s : CtrlState) (txId : Nat) (m : TxMeta)
    (h : getTransaction s txId = some m) : m ∈ s.txs :=
  List.mem_of_find?_eq_some h

/-- Outcome of the external fee estimator (_getEIP1559GasFeeEstimates), by
GAS_ESTIMATE_TYPES.  The feeMarket medium pair carries
(suggestedMaxFeePerGas, suggestedMaxPriorityFeePerGas), already converted to
wei; none models a medium tier with a missing suggestion.  unavailable covers
a failed fetch and the NONE estimate type. -/
inductive FeeEstimate where
  | feeMarket (medium : Option (Nat × Nat))
  | legacy (medium : Nat)
  | ethGasPrice (p : Nat)
  | unavailable
  deriving DecidableEq

/-- The two fee inputs _getDefaultGasFees can consult: the estimator outcome
and the direct node gas price query used as the final fallback. -/
structure FeeSource where
  estimate : FeeEstimate := .unavailable
  queryGasPrice : Option Nat := none
  deriving DecidableEq

/-- Result shape of _getDefaultGasFees. -/
structure GasDefaults where
  gasPrice : Option Nat := none
  maxFeePerGas : Option Nat := none
  maxPriorityFeePerGas : Option Nat := none
  deriving DecidableEq

/-- Embeds _getDefaultGasFees (index.js lines 519-570): returns nothing when
the needed fee fields are already set, else consults the estimator by type
and falls back to a direct gas price query. -/
def getDefaultGasFees (eip1559Compatibility : Bool) (tp : TxParams)
    (src : FeeSource) : GasDefaults :=
  if (!eip1559Compatibility && tp.gasPrice.isSome) ||
      (eip1559Compatibility && tp.maxFeePerGas.isSome && tp.maxPriorityFeePerGas.isSome) then
    {}
  else
    match src.estimate with
    | .feeMarket medium =>
      if eip1559Compatibility then
        match medium with
        | some (mf, mp) => { maxFeePerGas := some mf, maxPriorityFeePerGas := some mp }
        | none => { gasPrice := src.queryGasPrice }
      else { gasPrice := src.queryGasPrice }
    | .legacy m => { gasPrice := some m }
    | .ethGasPrice p => { gasPrice := some p }
    | .unavailable => { gasPrice := src.queryGasPrice }

/-- Embeds the fee-field part of addTxGasDefaults (index.js lines 426-506):
the EIP-1559 branch fills maxFeePerGas and maxPriorityFeePerGas by the
documented precedence and deletes gasPrice; the legacy branch deletes the
fee-market fields; the trailing common block fills gasPrice from the default
when no fee field survived. -/
def addTxGasDefaultsFees (eip1559Compatibility : Bool) (tp0 : TxParams)
    (d : GasDefaults) : TxParams :=
  let tp :=
    if eip1559Compatibility then
      let tp1 :=
        if tp0.gasPrice.isSome && !tp0.maxFeePerGas.isSome && !tp0.maxPriorityFeePerGas.isSome then
          { tp0 with maxFeePerGas := tp0.gasPrice, maxPriorityFeePerGas := tp0.gasPrice }
        else
          let a := if d.maxFeePerGas.isSome && !tp0.maxFeePerGas.isSome then
            { tp0 with maxFeePerGas := d.maxFeePerGas } else tp0
          let b := if d.maxPriorityFeePerGas.isSome && !a.maxPriorityFeePerGas.isSome then
            { a with maxPriorityFeePerGas := d.maxPriorityFeePerGas } else a
          let c := if d.gasPrice.isSome && !b.maxFeePerGas.isSome then
            { b with maxFeePerGas := d.gasPrice } else b
          if c.maxFeePerGas.isSome && !c.maxPriorityFeePerGas.isSome then
            { c with maxPriorityFeePerGas := c.maxFeePerGas } else c
      { tp1 with gasPrice := none }
    else
      { tp0 with maxPriorityFeePerGas := none, maxFeePerGas := none }
  if d.gasPrice.isSome && !tp.gasPrice.isSome && !tp.maxPriorityFeePerGas.isSome &&
      !tp.maxFeePerGas.isSome then
    { tp with gasPrice := d.gasPrice }
  else tp

/-- Embeds the trailing gas-limit default of addTxGasDefaults (lines
508-510): fill gas from defaultGasLimit when unset. -/
def setGasDefault (defaultGasLimit : Option Nat) (tp : TxParams) : TxParams :=
  if defaultGasLimit.isSome && !tp.gas.isSome then
    { tp with gas := defaultGasLimit }
  else tp

/-- Embeds addTxGasDefaults (index.js lines 407-512), with the gas-limit
default (computed by _getDefaultGasLimit) passed in as defaultGasLimit. -/
def addTxGasDefaults (eip1559Compatibility : Bool) (tp0 : TxParams)
    (src : FeeSource) (defaultGasLimit : Option Nat) : TxParams :=
  setGasDefault defaultGasLimit
    (addTxGasDefaultsFees eip1559Compatibility tp0
      (getDefaultGasFees eip1559Compatibility tp0 src))

/-- Exactly one fee shape: either legacy gasPrice alone, or the fee-market
pair with no gasPrice. -/
def exclusiveFeeShape (tp : TxParams) : Prop :=
  (tp.gasPrice.isSome = true ∧ tp.maxFeePerGas = none ∧ tp.maxPriorityFeePerGas = none) ∨
  (tp.gasPrice = none ∧ tp.maxFeePerGas.isSome = true ∧ tp.maxPriorityFeePerGas.isSome = true)

theorem exclusiveFeeShape_setGasDefault (gl : Option Nat) (tp : TxParams) :
    exclusiveFeeShape (setGasDefault gl tp) ↔ exclusiveFeeShape tp := by
  unfold setGasDefault
  split <;> simp [exclusiveFeeShape]

theorem exclusive_fees_core (compat : Bool) (tp : TxParams) (src : FeeSource)
    (hq : src.queryGasPrice.isSome = true) :
    exclusiveFeeShape (addTxGasDefaultsFees compat tp (getDefaultGasFees compat tp src)) := by
  obtain ⟨est, q⟩ := src
  rcases q with _ | q
  · simp at hq
  · rcases tp with ⟨f, t, v, dt, n, g, gp, mf, mp⟩
    cases compat <;>
      rcases est with (_ | ⟨emf, emp⟩) | em | ep | _ <;>
      rcases gp with _ | gp <;>
      rcases mf with _ | mf <;>
      rcases mp with _ | mp <;>
      simp [addTxGasDefaultsFees, getDefaultGasFees, exclusiveFeeShape]

/-- C5: after addTxGasDefaults completes with a fee source that yields a
value, the resulting txParams carry exactly one fee shape: either gasPrice
alone, or the maxFeePerGas / maxPriorityFeePerGas pair without gasPrice —
never both shapes, never neither. -/
theorem addTxGasDefaults_exclusive (compat : Bool) (tp : TxParams)
    (src : FeeSource) (gl : Option Nat) (hq : src.queryGasPrice.isSome = true) :
    exclusiveFeeShape (addTxGasDefaults compat tp src gl) := by
  unfold addTxGasDefaults
  exact (exclusiveFeeShape_setGasDefault gl _).mpr (exclusive_fees_core compat tp src hq)

/-- C5 witness: a concrete legacy-network run with only a node gas price
available ends in the exclusive legacy fee shape. -/
theorem addTxGasDefaults_exclusive_witness :
    exclusiveFeeShape
      (addTxGasDefaults false {} { estimate := .unavailable, queryGasPrice := some 5 } (some 21000)) :=
  addTxGasDefaults_exclusive false {} { estimate := .unavailable, queryGasPrice := some 5 }
    (some 21000) rfl

/-- The simple-send gas requirement GAS_LIMITS.SIMPLE, 0x5208. -/
def GAS_LIMITS_SIMPLE : Nat := 21000

/-- getCode response emptiness test from _determineTransactionType (line
1245): null, "0x" and "0x0" all mean no contract code. -/
def codeIsEmpty (code : Option String) : Bool :=
  code.isNone || code == some "0x" || code == some "0x0"

/-- Embeds _determineTransactionType (index.js lines 1214-1253).  The
outcome of parsing data against the ERC-20 interface is passed in as
parsedTokenMethod (the external parser is an out-of-scope collaborator), the
getCode network response as codeResponse (none models a failed query). -/
def determineTransactionType (tp : TxParams) (parsedTokenMethod : Option TxType)
    (codeResponse : Option String) : TxType × Option String :=
  let tokenMethod := if tp.data.isSome then parsedTokenMethod else none
  match tokenMethod with
  | some m => (m, none)
  | none =>
    if tp.data.isSome && !tp.to_.isSome then (.deployContract, none)
    else
      (if codeIsEmpty codeResponse then .sentEther else .contractInteraction, codeResponse)

/-- Embeds _getDefaultGasLimit (index.js lines 578-620).  The
analyzeGasUsage / addGasBuffer computation lives in tx-gas-utils (an
external collaborator file), so its outcome is the analyzed oracle. -/
def getDefaultGasLimit (tp : TxParams) (ty : TxType) (chainTypeIsCustom : Bool)
    (analyzed : Except TxErr Nat) : Except TxErr (Option Nat) :=
  if tp.gas.isSome then .ok none
  else if tp.to_.isSome && ty == .sentEther && !chainTypeIsCustom then
    if tp.data.isSome then .error .nonContractCall
    else .ok (some GAS_LIMITS_SIMPLE)
  else
    analyzed.map some

/-- The environment consulted by addUnapprovedTransaction: the selected
account, per-origin permitted accounts, EIP-1559 compatibility, the
data-parse and getCode oracles for _determineTransactionType, the fee
source, the gas analysis oracle, and the chain type. -/
structure IntakeEnv where
  selectedAddress : String := ""
  permittedAccounts : String → List String := fun _ => []
  eip1559Compatibility : Bool := false
  parsedTokenMethod : Option TxType := none
  codeResponse : Option String := none
  feeSource : FeeSource := {}
  analyzedGasLimit : Except TxErr Nat := .ok 0
  chainTypeIsCustom : Bool := false

/-- Embeds addUnapprovedTransaction (index.js lines 327-400): authorization
checks (wallet-internal origin must match the selected account, external
origins must hold permission for the sender), type classification, value
defaulting, insertion of the unapproved record, then gas defaulting with the
catch path that clears loadingDefaults and re-throws.  Normalization and
parameter validation (txUtils, not under src/) are modelled from the spec as
the identity on already-normalized, well-formed drafts. -/
def addUnapprovedTransaction (env : IntakeEnv) (s : CtrlState) (tp : TxParams)
    (origin : String) : CtrlState × Except TxErr Nat :=
  let authFail : Option TxErr :=
    if origin == "metamask" then
      if tp.from_ == env.selectedAddress then none else some .unauthorizedSender
    else
      if (env.permittedAccounts origin).contains tp.from_ then none
      else some .unauthorizedOrigin
  match authFail with
  | some e => (s, .error e)
  | none =>
    let tyCode := determineTransactionType tp env.parsedTokenMethod env.codeResponse
    let tp := { tp with value := some (tp.value.getD "0x0") }
    let txId := s.nextId
    let meta : TxMeta :=
      { id := txId, status := .unapproved, txParams := tp, type_ := tyCode.1,
        origin := origin, loadingDefaults := true }
    let s1 : CtrlState := { s with txs := s.txs ++ [meta], nextId := s.nextId + 1 }
    match getDefaultGasLimit tp tyCode.1 env.chainTypeIsCustom env.analyzedGasLimit with
    | .error e =>
      (updateTransaction s1 { meta with loadingDefaults := false }, .error e)
    | .ok dgl =>
      let tp2 := addTxGasDefaults env.eip1559Compatibility tp env.feeSource dgl
      (updateTransaction s1 { meta with txParams := tp2, loadingDefaults := false }, .ok txId)

theorem find?_append_fresh (l : List TxMeta) (m : TxMeta)
    (hfresh : ∀ t ∈ l, t.id ≠ m.id) :
    (l ++ [m]).find? (fun t => t.id == m.id) = some m := by
  induction l with
  | nil => simp [List.find?_cons]
  | cons t ts ih =>
    have hne : (t.id == m.id) = false := by
      simpa using hfresh t (List.mem_cons_self t ts)
    rw [List.cons_append, List.find?_cons]
    simp only [hne]
    exact ih fun u hu => hfresh u (List.mem_cons_of_mem t hu)

theorem getTransaction_update_append (l : List TxMeta) (meta m2 : TxMeta) (i : Nat)
    (hmi : meta.id = i) (hm2 : m2.id = i) (hfresh : ∀ t ∈ l, t.id ≠ i) :
    (updAt (l ++ [meta]) i (fun _ => m2)).find? (fun t => t.id == i) = some m2 := by
  subst hmi
  rw [find?_updAt_self _ meta.id _ (fun t _ => hm2), find?_append_fresh l meta hfresh]
  rfl

/-- C8: with the wallet-internal origin sentinel, addUnapprovedTransaction
throws the unauthorized-sender error unless the draft sender is the selected
account, and with an external origin it throws the unauthorized-origin error
unless the origin holds permission for the sender; in both failures the
store is returned unchanged — no record is added. -/
theorem addUnapprovedTransaction_auth (env : IntakeEnv) (s : CtrlState) (tp : TxParams) :
    (tp.from_ ≠ env.selectedAddress →
      addUnapprovedTransaction env s tp "metamask" = (s, .error .unauthorizedSender)) ∧
    (∀ origin, origin ≠ "metamask" → tp.from_ ∉ env.permittedAccounts origin →
      addUnapprovedTransaction env s tp origin = (s, .error .unauthorizedOrigin)) := by
  constructor
  · intro hf
    have h2 : (tp.from_ == env.selectedAddress) = false := by simpa using hf
    simp [addUnapprovedTransaction, h2]
  · intro origin ho hf
    have h1 : (origin == "metamask") = false := by simpa using ho
    simp [addUnapprovedTransaction, h1, hf]

/-- C8 witness: a wallet-internal draft from a non-selected account is
rejected with the unauthorized-sender error, and an external origin without
permission for the sender is rejected with the unauthorized-origin error;
the store stays empty in both runs. -/
theorem addUnapprovedTransaction_auth_witness :
    addUnapprovedTransaction { selectedAddress := "0xaaa" } {} { from_ := "0xbbb" } "metamask"
      = ({}, .error .unauthorizedSender) ∧
    addUnapprovedTransaction { selectedAddress := "0xaaa" } {} { from_ := "0xbbb" } "dapp.example"
      = ({}, .error .unauthorizedOrigin) :=
  ⟨(addUnapprovedTransaction_auth { selectedAddress := "0xaaa" } {} { from_ := "0xbbb" }).1
      (by decide),
   (addUnapprovedTransaction_auth { selectedAddress := "0xaaa" } {} { from_ := "0xbbb" }).2
      "dapp.example" (by decide) (by decide)⟩

/-- Concrete intake environment for the C7 analysis: the target address has
no deployed code and the call data does not decode as a token method. -/
def envC7 : IntakeEnv := { selectedAddress := "0xa", codeResponse := some "0x" }

/-- A draft with non-empty data, a to address without code — and an explicit
gas limit. -/
def draftC7 : TxParams :=
  { from_ := "0xa", to_ := some "0xb", data := some "0xdeadbeef", gas := some 30000 }

/-- C7 counterexample: the claim asserts that any submitted draft with
non-empty data and a code-less to address makes gas defaulting fail with the
non-contract-call error.  For the concrete draft draftC7 — non-empty data,
to address without code, but with a gas limit supplied — the submission
succeeds: no error is raised and the stored record completes defaulting. -/
theorem nonContractCall_claim_counterexample :
    (addUnapprovedTransaction envC7 {} draftC7 "metamask").2 = .ok 1 ∧
    getTransaction (addUnapprovedTransaction envC7 {} draftC7 "metamask").1 1 =
      some { id := 1, status := .unapproved,
             txParams := { draftC7 with value := some "0x0" },
             type_ := .sentEther, origin := "metamask", loadingDefaults := false } := by
  constructor <;> rfl

/-- C7 (amended): when a draft with non-empty data and a code-less to
address is submitted — provided additionally that the draft does not preset
a gas limit, the data does not decode as a known token method, and the chain
is not a custom-type chain — the record is created and stored as unapproved,
gas defaulting fails with the non-contract-call error which is surfaced to
the caller, and the record remains flagged as failed-to-default:
loadingDefaults cleared with no gas filled in. -/
theorem nonContractCall_defaulting_fails (env : IntakeEnv) (s : CtrlState) (tp : TxParams)
    (hgas : tp.gas = none) (hto : tp.to_.isSome = true) (hdata : tp.data.isSome = true)
    (hparse : env.parsedTokenMethod = none) (hcode : codeIsEmpty env.codeResponse = true)
    (hchain : env.chainTypeIsCustom = false) (hauth : tp.from_ = env.selectedAddress)
    (hfresh : ∀ t ∈ s.txs, t.id ≠ s.nextId) :
    (addUnapprovedTransaction env s tp "metamask").2 = .error .nonContractCall ∧
    ∃ m, getTransaction (addUnapprovedTransaction env s tp "metamask").1 s.nextId = some m ∧
      m.status = .unapproved ∧ m.loadingDefaults = false ∧ m.txParams.gas = none ∧
      m.txParams.data = tp.data := by
  have hfb : (tp.from_ == env.selectedAddress) = true := by simp [hauth]
  have hty : determineTransactionType tp env.parsedTokenMethod env.codeResponse =
      (.sentEther, env.codeResponse) := by
    simp [determineTransactionType, hdata, hparse, hto, hcode]
  have hgl : getDefaultGasLimit { tp with value := some (tp.value.getD "0x0") } .sentEther
      env.chainTypeIsCustom env.analyzedGasLimit = .error .nonContractCall := by
    simp [getDefaultGasLimit, hgas, hto, hdata, hchain]
  refine ⟨?_, ?_⟩
  · simp [addUnapprovedTransaction, hfb, hty, hgl]
  · refine ⟨{ id := s.nextId, status := .unapproved,
              txParams := { tp with value := some (tp.value.getD "0x0") },
              type_ := .sentEther, origin := "metamask",
              loadingDefaults := false }, ?_, rfl, rfl, ?_, ?_⟩
    · simp only [addUnapprovedTransaction, hfb, hty, hgl]
      simp only [beq_self_eq_true, if_true]
      simp only [getTransaction, updateTransaction]
      apply getTransaction_update_append
      · rfl
      · rfl
      · exact hfresh
    · simp [hgas]
    · rfl

/-- A draft with non-empty data, a code-less to address and no gas limit. -/
def draftC7b : TxParams := { from_ := "0xa", to_ := some "0xb", data := some "0x1234" }

/-- C7 amended-claim witness: a concrete run of the failing-defaulting
scenario. -/
theorem nonContractCall_defaulting_fails_witness :
    (addUnapprovedTransaction envC7 {} draftC7b "metamask").2 = .error .nonContractCall ∧
    ∃ m, getTransaction (addUnapprovedTransaction envC7 {} draftC7b "metamask").1 1 = some m ∧
      m.status = .unapproved ∧ m.loadingDefaults = false ∧ m.txParams.gas = none ∧
      m.txParams.data = draftC7b.data :=
  nonContractCall_defaulting_fails envC7 {} draftC7b rfl rfl rfl rfl rfl rfl rfl
    (by intro t ht; cases ht)

/-- Character-wise lowercasing, embedding JS String.prototype.toLowerCase as
used on broadcast error messages. -/
def lowerString (s : String) : String := String.mk (s.data.map Char.toLower)

/-- True when the first list is an initial segment of the second. -/
def leadsWith : List Char → List Char → Bool
  | [], _ => true
  | _ :: _, [] => false
  | p :: ps, c :: cs => p == c && leadsWith ps cs

/-- True when pat occurs contiguously somewhere in the list. -/
def hasSubstrAux (pat : List Char) : List Char → Bool
  | [] => leadsWith pat []
  | c :: cs => leadsWith pat (c :: cs) || hasSubstrAux pat cs

/-- JS String.prototype.includes. -/
def containsSubstr (s pat : String) : Bool := hasSubstrAux pat.data s.data

/-- The external outcomes one approveTransaction run can observe: the
approved-status store update (which the state manager may reject), the nonce
lock acquisition delivering nextNonce, the signer, the broadcast
(sendRawTransaction returning a hash or an error message), and the keccak
hash function used for locally recomputing the hash of a known
transaction. -/
structure ApproveEnv where
  approveOutcome : Except TxErr Unit := .ok ()
  lockOutcome : Except TxErr Nat := .ok 0
  signOutcome : Except TxErr String := .ok "f86b0c"
  broadcastOutcome : Except String String := .ok "0xfeed"
  keccakHex : String → String := fun _ => ""

/-- Operations an approveTransaction run performed, for stating the
coalescing no-op and lock-release properties. -/
inductive Effect where
  | statusApproved
  | acquireLock
  | signTx
  | broadcast
  | releaseLock
  deriving DecidableEq

theorem getTransaction_state_updAt (s : CtrlState) (txId : Nat) (f : TxMeta → TxMeta)
    (hf : ∀ t : TxMeta, t.id = txId → (f t).id = txId) (m : TxMeta)
    (hm : getTransaction s txId = some m) :
    ({ s with txs := updAt s.txs txId f } : CtrlState).txs.find?
      (fun t => t.id == txId) = some (f m) := by
  show (updAt s.txs txId f).find? _ = _
  rw [find?_updAt_self _ txId f hf]
  rw [show s.txs.find? (fun t => t.id == txId) = some m from hm]
  rfl

theorem getTransaction_setTxStatus_self (s : CtrlState) (txId : Nat) (st : TxStatus)
    (m : TxMeta) (hm : getTransaction s txId = some m) :
    getTransaction (setTxStatus s txId st) txId = some { m with status := st } :=
  getTransaction_state_updAt s txId (fun t => { t with status := st }) (fun t ht => ht) m hm

theorem getTransaction_setTxHash_self (s : CtrlState) (txId : Nat) (h : String)
    (m : TxMeta) (hm : getTransaction s txId = some m) :
    getTransaction (setTxHash s txId h) txId = some { m with hash := some h } :=
  getTransaction_state_updAt s txId (fun t => { t with hash := some h }) (fun t ht => ht) m hm

theorem getTransaction_failTransaction_self (s : CtrlState) (txId : Nat) (e : TxErr)
    (m : TxMeta) (hm : getTransaction s txId = some m) :
    getTransaction (failTransaction s txId e) txId =
      some { m with status := .failed, err := some e } :=
  getTransaction_state_updAt s txId (fun t => { t with status := .failed, err := some e })
    (fun t ht => ht) m hm

theorem getTransaction_updateTransaction_self (s : CtrlState) (m2 : TxMeta) (txId : Nat)
    (hid : m2.id = txId) (hm : (getTransaction s txId).isSome = true) :
    getTransaction (updateTransaction s m2) txId = some m2 := by
  obtain ⟨m, hm'⟩ := Option.isSome_iff_exists.mp hm
  show (updAt s.txs m2.id _).find? _ = _
  rw [hid, find?_updAt_self _ txId _ (fun t _ => hid)]
  rw [show s.txs.find? (fun t => t.id == txId) = some m from hm']
  rfl

/-- Embeds publishTransaction (index.js lines 925-952): stores the raw tx,
broadcasts it, and on an error whose lowercased message includes the phrase
about an already-known transaction, recomputes the hash locally as keccak of
the raw tx and still marks the record submitted; other errors are
re-thrown.  The swap pre-balance query is out of scope of the claims and is
elided. -/
def publishTransaction (env : ApproveEnv) (s : CtrlState) (txId : Nat) (rawTx : String) :
    CtrlState × Except TxErr Unit :=
  match getTransaction s txId with
  | none => (s, .error (.external "TypeError"))
  | some m =>
    match env.broadcastOutcome with
    | .ok txHash =>
      (setTxStatus
        (setTxHash (updateTransaction s { m with rawTx := some rawTx }) txId txHash)
        txId .submitted, .ok ())
    | .error msg =>
      if containsSubstr (lowerString msg) "known transaction" then
        (setTxStatus
          (setTxHash (updateTransaction s { m with rawTx := some rawTx }) txId
            (add0x (env.keccakHex rawTx)))
          txId .submitted, .ok ())
      else (updateTransaction s { m with rawTx := some rawTx }, .error (.external msg))

/-- C9: when the broadcast fails with a message containing the phrase
"known transaction" (case-insensitively), publishTransaction does not fail
the record — it records the locally keccak-computed hash and still
transitions the record to submitted; any other broadcast error is re-thrown
to the caller and the record's status is left unchanged. -/
theorem publishTransaction_knownTx (env : ApproveEnv) (s : CtrlState) (txId : Nat)
    (rawTx : String) (m : TxMeta) (msg : String)
    (hm : getTransaction s txId = some m) (hb : env.broadcastOutcome = .error msg) :
    (containsSubstr (lowerString msg) "known transaction" = true →
      (publishTransaction env s txId rawTx).2 = .ok () ∧
      ∃ m2, getTransaction (publishTransaction env s txId rawTx).1 txId = some m2 ∧
        m2.status = .submitted ∧ m2.hash = some (add0x (env.keccakHex rawTx))) ∧
    (containsSubstr (lowerString msg) "known transaction" = false →
      (publishTransaction env s txId rawTx).2 = .error (.external msg) ∧
      ∃ m2, getTransaction (publishTransaction env s txId rawTx).1 txId = some m2 ∧
        m2.status = m.status) := by
  have hid : m.id = txId := id_eq_of_getTransaction s txId m hm
  have h1 : getTransaction (updateTransaction s { m with rawTx := some rawTx }) txId =
      some { m with rawTx := some rawTx } :=
    getTransaction_updateTransaction_self s { m with rawTx := some rawTx } txId hid
      (by rw [hm]; rfl)
  constructor
  · intro hc
    simp only [publishTransaction, hm, hb]
    rw [if_pos hc]
    refine ⟨rfl, ⟨{ m with
                    rawTx := some rawTx,
                    hash := some (add0x (env.keccakHex rawTx)),
                    status := .submitted }, ?_, rfl, rfl⟩⟩
    exact getTransaction_setTxStatus_self _ txId _ _
      (getTransaction_setTxHash_self _ txId _ _ h1)
  · intro hc
    simp only [publishTransaction, hm, hb]
    rw [if_neg (by simp [hc])]
    exact ⟨rfl, ⟨{ m with rawTx := some rawTx }, h1, rfl⟩⟩

/-- C9 witness: a concrete store where broadcasting reports an uppercase
known-transaction message ends submitted with the locally computed hash, and
one with a different error propagates it unchanged. -/
theorem publishTransaction_knownTx_witness :
    (publishTransaction
        { broadcastOutcome := .error "Known Transaction: deadbeef", keccakHex := fun _ => "ab12" }
        { txs := [{ id := 4, status := .signedStatus }] } 4 "f86b").2 = .ok () ∧
    (∃ m2, getTransaction
        (publishTransaction
          { broadcastOutcome := .error "Known Transaction: deadbeef", keccakHex := fun _ => "ab12" }
          { txs := [{ id := 4, status := .signedStatus }] } 4 "f86b").1 4 = some m2 ∧
      m2.status = .submitted ∧ m2.hash = some (add0x "ab12")) ∧
    (publishTransaction { broadcastOutcome := .error "nonce too low" }
        { txs := [{ id := 4, status := .signedStatus }] } 4 "f86b").2 =
      .error (.external "nonce too low") :=
  ⟨((publishTransaction_knownTx
      { broadcastOutcome := .error "Known Transaction: deadbeef", keccakHex := fun _ => "ab12" }
      { txs := [{ id := 4, status := .signedStatus }] } 4 "f86b"
      { id := 4, status := .signedStatus } "Known Transaction: deadbeef" rfl rfl).1 (by decide)).1,
   ((publishTransaction_knownTx
      { broadcastOutcome := .error "Known Transaction: deadbeef", keccakHex := fun _ => "ab12" }
      { txs := [{ id := 4, status := .signedStatus }] } 4 "f86b"
      { id := 4, status := .signedStatus } "Known Transaction: deadbeef" rfl rfl).1 (by decide)).2,
   ((publishTransaction_knownTx { broadcastOutcome := .error "nonce too low" }
      { txs := [{ id := 4, status := .signedStatus }] } 4 "f86b"
      { id := 4, status := .signedStatus } "nonce too low" rfl rfl).2 (by decide)).1⟩

/-- What one approveTransaction run produced: the final controller state, the
operations performed, and the returned or thrown outcome. -/
structure ApprovalResult where
  state : CtrlState
  effects : List Effect
  result : Except TxErr Unit

/-- The finally block of approveTransaction: this.inProcessOfSigning.delete(txId). -/
def finishSigning (s : CtrlState) (txId : Nat) : CtrlState :=
  { s with inProcessOfSigning := s.inProcessOfSigning.erase txId }

/-- The nonce string approveTransaction writes into txParams (lines 832-844):
a numeric customNonceValue always wins, with an explicit zero honored; else a
record carrying previousGasParams reuses its own txParams.nonce (a retry at
the same nonce); else the nonce lock's nextNonce is used; the chosen value is
hex-encoded with a 0x prefix. -/
def chosenNonce (txMeta : TxMeta) (nextNonce : Nat) : String :=
  match txMeta.customNonceValue with
  | some c => hexOfNat c
  | none =>
    if txMeta.previousGasParams.isSome then add0x (txMeta.txParams.nonce.getD "")
    else hexOfNat nextNonce

/-- The tail of approveTransaction once the nonce lock is held and the nonce
has been written into the record (lines 854-875): sign, publish, release; on
failure fail the record, release, and re-throw. -/
def approveAfterNonce (env : ApproveEnv) (s : CtrlState) (txId : Nat) : ApprovalResult :=
  match env.signOutcome with
  | .error e =>
    { state := finishSigning (failTransaction s txId e) txId,
      effects := [.statusApproved, .acquireLock, .releaseLock], result := .error e }
  | .ok rawTx =>
    match publishTransaction env (setTxStatus s txId .signedStatus) txId rawTx with
    | (s2, .error e) =>
      { state := finishSigning (failTransaction s2 txId e) txId,
        effects := [.statusApproved, .acquireLock, .signTx, .broadcast, .releaseLock],
        result := .error e }
    | (s2, .ok _) =>
      { state := finishSigning s2 txId,
        effects := [.statusApproved, .acquireLock, .signTx, .broadcast, .releaseLock],
        result := .ok () }

/-- The try/catch body of approveTransaction (lines 824-875), entered with
txId already recorded in inProcessOfSigning: set the status to approved,
re-read the record, acquire the nonce lock, write the chosen nonce, then
hand over to the sign-and-publish tail.  Each failure point fails the record,
releases the lock only if it was acquired, and re-throws. -/
def approveTransactionBody (env : ApproveEnv) (s : CtrlState) (txId : Nat) : ApprovalResult :=
  match env.approveOutcome with
  | .error e =>
    { state := finishSigning (failTransaction s txId e) txId, effects := [],
      result := .error e }
  | .ok _ =>
    match getTransaction (setTxStatus s txId .approved) txId with
    | none =>
      { state := finishSigning
          (failTransaction (setTxStatus s txId .approved) txId (.external "TypeError")) txId,
        effects := [.statusApproved], result := .error (.external "TypeError") }
    | some txMeta =>
      match env.lockOutcome with
      | .error e =>
        { state := finishSigning (failTransaction (setTxStatus s txId .approved) txId e) txId,
          effects := [.statusApproved], result := .error e }
      | .ok nextNonce =>
        approveAfterNonce env
          (updateTransaction (setTxStatus s txId .approved)
            { txMeta with txParams :=
                { txMeta.txParams with nonce := some (chosenNonce txMeta nextNonce) } })
          txId

/-- Embeds approveTransaction (index.js lines 813-876): the inProcessOfSigning
coalescing guard makes a duplicate in-flight call an immediate no-op; a fresh
call records the id, runs the approval body, and always removes the id again
in the finally block. -/
def approveTransaction (env : ApproveEnv) (s0 : CtrlState) (txId : Nat) : ApprovalResult :=
  if s0.inProcessOfSigning.contains txId then
    { state := s0, effects := [], result := .ok () }
  else
    approveTransactionBody env
      { s0 with inProcessOfSigning := txId :: s0.inProcessOfSigning } txId

theorem inProcess_publishTransaction (env : ApproveEnv) (s : CtrlState) (txId : Nat)
    (rawTx : String) :
    (publishTransaction env s txId rawTx).1.inProcessOfSigning = s.inProcessOfSigning := by
  unfold publishTransaction
  cases getTransaction s txId with
  | none => rfl
  | some m =>
    cases env.broadcastOutcome with
    | ok h => rfl
    | error msg =>
      dsimp only
      by_cases hc : containsSubstr (lowerString msg) "known transaction" = true
      · rw [if_pos hc]
        rfl
      · rw [if_neg hc]
        rfl

theorem inProcess_approveAfterNonce (env : ApproveEnv) (s : CtrlState) (txId : Nat) :
    (approveAfterNonce env s txId).state.inProcessOfSigning =
      s.inProcessOfSigning.erase txId := by
  unfold approveAfterNonce
  cases env.signOutcome with
  | error e => rfl
  | ok rawTx =>
    dsimp only
    rcases hp : publishTransaction env (setTxStatus s txId .signedStatus) txId rawTx with ⟨s2, r⟩
    have h2 : s2.inProcessOfSigning = s.inProcessOfSigning := by
      have h3 := inProcess_publishTransaction env (setTxStatus s txId .signedStatus) txId rawTx
      rw [hp] at h3
      exact h3
    cases r with
    | error e => show s2.inProcessOfSigning.erase txId = _; rw [h2]
    | ok u => show s2.inProcessOfSigning.erase txId = _; rw [h2]

theorem inProcess_approveTransactionBody (env : ApproveEnv) (s : CtrlState) (txId : Nat) :
    (approveTransactionBody env s txId).state.inProcessOfSigning =
      s.inProcessOfSigning.erase txId := by
  unfold approveTransactionBody
  cases env.approveOutcome with
  | error e => rfl
  | ok u =>
    cases getTransaction (setTxStatus s txId .approved) txId with
    | none => rfl
    | some txMeta =>
      cases env.lockOutcome with
      | error e => rfl
      | ok n =>
        rw [inProcess_approveAfterNonce]
        rfl

/-- C6: a second approveTransaction call for an id already in
inProcessOfSigning returns immediately with the state unchanged, no
operations performed (no status transition, no nonce acquisition, no
signing, no broadcast) and a successful no-op result; after a fresh call
completes, the id is removed from inProcessOfSigning again, so the id is
eligible for approval again. -/
theorem approveTransaction_coalesces (env : ApproveEnv) (s : CtrlState) (txId : Nat) :
    (s.inProcessOfSigning.contains txId = true →
      approveTransaction env s txId = { state := s, effects := [], result := .ok () }) ∧
    (s.inProcessOfSigning.contains txId = false →
      txId ∉ (approveTransaction env s txId).state.inProcessOfSigning) := by
  constructor
  · intro h
    unfold approveTransaction
    rw [if_pos h]
  · intro h
    have hmem : txId ∉ s.inProcessOfSigning := by simpa using h
    have h1 : (approveTransaction env s txId).state.inProcessOfSigning =
        s.inProcessOfSigning := by
      unfold approveTransaction
      rw [if_neg (by simpa using hmem)]
      rw [inProcess_approveTransactionBody]
      show (txId :: s.inProcessOfSigning).erase txId = _
      rw [List.erase_cons_head]
    rw [h1]
    exact hmem

/-- C6 witness: with id 7 already in flight the call is a literal no-op, and
a fresh call on id 3 leaves 3 eligible again. -/
theorem approveTransaction_coalesces_witness :
    approveTransaction {} { txs := [{ id := 7 }], inProcessOfSigning := [7] } 7 =
      { state := { txs := [{ id := 7 }], inProcessOfSigning := [7] }, effects := [],
        result := .ok () } ∧
    3 ∉ (approveTransaction {} { txs := [{ id := 3 }] } 3).state.inProcessOfSigning :=
  ⟨(approveTransaction_coalesces {} { txs := [{ id := 7 }], inProcessOfSigning := [7] } 7).1 rfl,
   (approveTransaction_coalesces {} { txs := [{ id := 3 }] } 3).2 rfl⟩

theorem getTransaction_publish_exists (env : ApproveEnv) (s : CtrlState) (txId : Nat)
    (rawTx : String) (m : TxMeta) (hm : getTransaction s txId = some m) :
    ∃ m2, getTransaction (publishTransaction env s txId rawTx).1 txId = some m2 ∧
      m2.txParams = m.txParams := by
  have hid : m.id = txId := id_eq_of_getTransaction s txId m hm
  have h1 : getTransaction (updateTransaction s { m with rawTx := some rawTx }) txId =
      some { m with rawTx := some rawTx } :=
    getTransaction_updateTransaction_self s { m with rawTx := some rawTx } txId hid
      (by rw [hm]; rfl)
  unfold publishTransaction
  rw [hm]
  dsimp only
  cases env.broadcastOutcome with
  | ok h =>
    exact ⟨_, getTransaction_setTxStatus_self _ txId _ _
      (getTransaction_setTxHash_self _ txId _ _ h1), rfl⟩
  | error msg =>
    dsimp only
    by_cases hc : containsSubstr (lowerString msg) "known transaction" = true
    · rw [if_pos hc]
      exact ⟨_, getTransaction_setTxStatus_self _ txId _ _
        (getTransaction_setTxHash_self _ txId _ _ h1), rfl⟩
    · rw [if_neg hc]
      exact ⟨_, h1, rfl⟩

theorem approveAfterNonce_spec (env : ApproveEnv) (s : CtrlState) (txId : Nat)
    (m : TxMeta) (hm : getTransaction s txId = some m) :
    (∃ m2, getTransaction (approveAfterNonce env s txId).state txId = some m2 ∧
       m2.txParams = m.txParams ∧
       (∀ e, (approveAfterNonce env s txId).result = .error e →
         m2.status = .failed ∧ m2.err = some e)) ∧
    .releaseLock ∈ (approveAfterNonce env s txId).effects := by
  unfold approveAfterNonce
  cases env.signOutcome with
  | error e =>
    refine ⟨⟨_, getTransaction_failTransaction_self s txId e m hm, rfl, ?_⟩, by simp⟩
    intro e' he
    cases he
    exact ⟨rfl, rfl⟩
  | ok rawTx =>
    dsimp only
    rcases hp : publishTransaction env (setTxStatus s txId .signedStatus) txId rawTx with ⟨s2, r⟩
    have hsome := getTransaction_publish_exists env (setTxStatus s txId .signedStatus) txId rawTx
      { m with status := .signedStatus } (getTransaction_setTxStatus_self s txId _ m hm)
    rw [hp] at hsome
    obtain ⟨m2, hm2, hparams⟩ := hsome
    cases r with
    | error e =>
      refine ⟨⟨_, getTransaction_failTransaction_self s2 txId e m2 hm2, hparams, ?_⟩, by simp⟩
      intro e' he
      cases he
      exact ⟨rfl, rfl⟩
    | ok u =>
      refine ⟨⟨m2, hm2, hparams, ?_⟩, by simp⟩
      intro e' he
      cases he

theorem approveTransactionBody_spec (env : ApproveEnv) (s : CtrlState) (txId : Nat)
    (m : TxMeta) (hm : getTransaction s txId = some m) :
    (∀ e, (approveTransactionBody env s txId).result = .error e →
      ∃ m2, getTransaction (approveTransactionBody env s txId).state txId = some m2 ∧
        m2.status = .failed ∧ m2.err = some e) ∧
    (.acquireLock ∈ (approveTransactionBody env s txId).effects →
      .releaseLock ∈ (approveTransactionBody env s txId).effects) := by
  unfold approveTransactionBody
  cases env.approveOutcome with
  | error e =>
    refine ⟨?_, by intro h; simp at h⟩
    intro e' he
    cases he
    exact ⟨_, getTransaction_failTransaction_self s txId e m hm, rfl, rfl⟩
  | ok u =>
    dsimp only
    rw [getTransaction_setTxStatus_self s txId .approved m hm]
    dsimp only
    cases env.lockOutcome with
    | error e =>
      refine ⟨?_, by intro h; simp at h⟩
      intro e' he
      cases he
      refine ⟨_, getTransaction_failTransaction_self (setTxStatus s txId .approved) txId e
        { m with status := .approved } (getTransaction_setTxStatus_self s txId .approved m hm),
        rfl, rfl⟩
    | ok n =>
      have hid : m.id = txId := id_eq_of_getTransaction s txId m hm
      have hmU : getTransaction
          (updateTransaction (setTxStatus s txId .approved)
            { { m with status := .approved } with txParams :=
                { ({ m with status := .approved } : TxMeta).txParams with
                  nonce := some (chosenNonce { m with status := .approved } n) } }) txId =
          some { { m with status := .approved } with txParams :=
                { ({ m with status := .approved } : TxMeta).txParams with
                  nonce := some (chosenNonce { m with status := .approved } n) } } :=
        getTransaction_updateTransaction_self _ _ txId hid
          (by rw [getTransaction_setTxStatus_self s txId .approved m hm]; rfl)
      obtain ⟨⟨m2, hm2, hparams, hfail⟩, hrel⟩ := approveAfterNonce_spec env _ txId _ hmU
      exact ⟨fun e he => ⟨m2, hm2, hfail e he⟩, fun _ => hrel⟩

/-- C1: for a record not already in flight, whenever any step of
approveTransaction throws (the approved-status update, nonce-lock
acquisition, signing, or broadcast), the record transitions to failed with
the captured error attached and the error is re-thrown as the call's result;
and on every exit path, success or failure, a nonce lock that was acquired
(the acquireLock effect) is released (the releaseLock effect) before the
call returns. -/
theorem approveTransaction_failure_handling (env : ApproveEnv) (s : CtrlState) (txId : Nat)
    (m : TxMeta) (hni : s.inProcessOfSigning.contains txId = false)
    (hm : getTransaction s txId = some m) :
    (∀ e, (approveTransaction env s txId).result = .error e →
      ∃ m2, getTransaction (approveTransaction env s txId).state txId = some m2 ∧
        m2.status = .failed ∧ m2.err = some e) ∧
    (.acquireLock ∈ (approveTransaction env s txId).effects →
      .releaseLock ∈ (approveTransaction env s txId).effects) := by
  unfold approveTransaction
  rw [if_neg (by simp [Bool.not_eq_true] at hni ⊢; simpa using hni)]
  exact approveTransactionBody_spec env
    { s with inProcessOfSigning := txId :: s.inProcessOfSigning } txId m hm

/-- Concrete approval environment whose signer throws. -/
def envC1 : ApproveEnv := { signOutcome := .error (.external "sigfail") }

/-- A one-record store holding an unapproved transaction with id 1. -/
def sC1 : CtrlState := { txs := [{ id := 1, txParams := { from_ := "0xa" } }] }

/-- C1 witness: the concrete signing failure leaves record 1 failed with the
error attached, and the acquired nonce lock was released. -/
theorem approveTransaction_failure_handling_witness :
    (∃ m2, getTransaction (approveTransaction envC1 sC1 1).state 1 = some m2 ∧
      m2.status = .failed ∧ m2.err = some (.external "sigfail")) ∧
    .releaseLock ∈ (approveTransaction envC1 sC1 1).effects :=
  ⟨(approveTransaction_failure_handling envC1 sC1 1 { id := 1, txParams := { from_ := "0xa" } }
      rfl rfl).1 (.external "sigfail") rfl,
   (approveTransaction_failure_handling envC1 sC1 1 { id := 1, txParams := { from_ := "0xa" } }
      rfl rfl).2 (by decide)⟩

theorem approveTransactionBody_nonce (env : ApproveEnv) (s : CtrlState) (txId : Nat)
    (m : TxMeta) (hm : getTransaction s txId = some m) :
    ∃ m2, getTransaction (approveTransactionBody env s txId).state txId = some m2 ∧
      (env.approveOutcome = .ok () → ∀ k, env.lockOutcome = .ok k →
        m2.txParams.nonce = some (chosenNonce { m with status := .approved } k)) ∧
      (m2.txParams.nonce = m.txParams.nonce ∨
       ∃ k, env.lockOutcome = .ok k ∧
         m2.txParams.nonce = some (chosenNonce { m with status := .approved } k)) := by
  unfold approveTransactionBody
  cases env.approveOutcome with
  | error e =>
    refine ⟨_, getTransaction_failTransaction_self s txId e m hm, ?_, Or.inl rfl⟩
    intro hak
    cases hak
  | ok u =>
    dsimp only
    rw [getTransaction_setTxStatus_self s txId .approved m hm]
    dsimp only
    cases env.lockOutcome with
    | error e =>
      refine ⟨_, getTransaction_failTransaction_self (setTxStatus s txId .approved) txId e
        { m with status := .approved } (getTransaction_setTxStatus_self s txId .approved m hm),
        ?_, Or.inl rfl⟩
      intro _ k hlk
      cases hlk
    | ok n =>
      have hid : m.id = txId := id_eq_of_getTransaction s txId m hm
      have hmU : getTransaction
          (updateTransaction (setTxStatus s txId .approved)
            { { m with status := .approved } with txParams :=
                { ({ m with status := .approved } : TxMeta).txParams with
                  nonce := some (chosenNonce { m with status := .approved } n) } }) txId =
          some { { m with status := .approved } with txParams :=
                { ({ m with status := .approved } : TxMeta).txParams with
                  nonce := some (chosenNonce { m with status := .approved } n) } } :=
        getTransaction_updateTransaction_self _ _ txId hid
          (by rw [getTransaction_setTxStatus_self s txId .approved m hm]; rfl)
      obtain ⟨⟨m2, hm2, hparams, _⟩, _⟩ := approveAfterNonce_spec env _ txId _ hmU
      refine ⟨m2, hm2, ?_, Or.inr ⟨n, rfl, by rw [hparams]⟩⟩
      intro _ k hlk
      cases hlk
      rw [hparams]

theorem approveTransaction_nonce (env : ApproveEnv) (s : CtrlState) (txId : Nat)
    (m : TxMeta) (hni : s.inProcessOfSigning.contains txId = false)
    (hm : getTransaction s txId = some m) :
    ∃ m2, getTransaction (approveTransaction env s txId).state txId = some m2 ∧
      (env.approveOutcome = .ok () → ∀ k, env.lockOutcome = .ok k →
        m2.txParams.nonce = some (chosenNonce { m with status := .approved } k)) ∧
      (m2.txParams.nonce = m.txParams.nonce ∨
       ∃ k, env.lockOutcome = .ok k ∧
         m2.txParams.nonce = some (chosenNonce { m with status := .approved } k)) := by
  unfold approveTransaction
  rw [if_neg (by simp [Bool.not_eq_true] at hni ⊢; simpa using hni)]
  exact approveTransactionBody_nonce env
    { s with inProcessOfSigning := txId :: s.inProcessOfSigning } txId m hm

/-- C10: a present numeric customNonceValue overrides both the nonce lock's
nextNonce and the previousGasParams-based reuse — including an explicit
customNonceValue of 0, which is honored rather than treated as absent — and
the nonce written into txParams is the 0x-prefixed hex encoding of that
value, for every lock-provided nextNonce k and regardless of
previousGasParams. -/
theorem approveTransaction_customNonce (env : ApproveEnv) (s : CtrlState) (txId : Nat)
    (m : TxMeta) (n k : Nat) (hni : s.inProcessOfSigning.contains txId = false)
    (hm : getTransaction s txId = some m) (hc : m.customNonceValue = some n)
    (ha : env.approveOutcome = .ok ()) (hl : env.lockOutcome = .ok k) :
    ∃ m2, getTransaction (approveTransaction env s txId).state txId = some m2 ∧
      m2.txParams.nonce = some (hexOfNat n) := by
  obtain ⟨m2, hm2, hnonce, _⟩ := approveTransaction_nonce env s txId m hni hm
  refine ⟨m2, hm2, ?_⟩
  rw [hnonce ha k hl]
  simp [chosenNonce, hc]

/-- Store for the C10 witness: record 2 carries customNonceValue 0, a
previousGasParams snapshot, and an existing nonce 0x5. -/
def sC10 : CtrlState :=
  { txs := [{ id := 2, customNonceValue := some 0, previousGasParams := some {},
              txParams := { from_ := "0xa", nonce := some "0x5" } }] }

/-- C10 witness: with nextNonce 9 and previousGasParams present, the explicit
customNonceValue 0 still wins and is written as the hex string 0x0. -/
theorem approveTransaction_customNonce_witness :
    ∃ m2, getTransaction (approveTransaction { lockOutcome := .ok 9 } sC10 2).state 2 = some m2 ∧
      m2.txParams.nonce = some (hexOfNat 0) :=
  approveTransaction_customNonce { lockOutcome := .ok 9 } sC10 2
    { id := 2, customNonceValue := some 0, previousGasParams := some {},
      txParams := { from_ := "0xa", nonce := some "0x5" } } 0 9 rfl rfl rfl rfl rfl

/-- Gas overrides for cancel / speed-up (the CustomGasSettings typedef). -/
structure CustomGasSettings where
  gas : Option Nat := none
  gasLimit : Option Nat := none
  gasPrice : Option Nat := none
  maxFeePerGas : Option Nat := none
  maxPriorityFeePerGas : Option Nat := none
  deriving DecidableEq

/-- Modelled from the spec: isEIP1559Transaction from
shared/modules/transaction.utils is not under src/; per the spec a record is
fee-market exactly when it carries the EIP-1559 fee pair. -/
def isEIP1559Transaction (m : TxMeta) : Bool :=
  m.txParams.maxFeePerGas.isSome && m.txParams.maxPriorityFeePerGas.isSome

/-- Modelled from the spec: BnMultiplyByFraction from app/scripts/lib/util is
not under src/; the spec requires arbitrary-precision integer arithmetic for
fee bumping, so this is integer multiply-then-divide on naturals. -/
def BnMultiplyByFraction (target numerator denominator : Nat) : Nat :=
  target * numerator / denominator

/-- Embeds generateNewGasParams (index.js lines 638-685): snapshots the
original fee fields as previousGasParams and produces new fee fields, taking
any custom override, else bumping the original by
incrementNumerator / 10 (11 is a 10 percent bump). -/
def generateNewGasParams (originalTxMeta : TxMeta) (customGasSettings : CustomGasSettings)
    (incrementNumerator : Nat := 11) : PrevGasParams × CustomGasSettings :=
  let txParams := originalTxMeta.txParams
  let newGas : Option Nat :=
    if customGasSettings.gasLimit.isSome then some (customGasSettings.gas.getD GAS_LIMITS_SIMPLE)
    else none
  if isEIP1559Transaction originalTxMeta then
    ({ maxFeePerGas := txParams.maxFeePerGas,
       maxPriorityFeePerGas := txParams.maxPriorityFeePerGas },
     { gas := newGas,
       maxFeePerGas := some (customGasSettings.maxFeePerGas.getD
         (BnMultiplyByFraction (txParams.maxFeePerGas.getD 0) incrementNumerator 10)),
       maxPriorityFeePerGas := some (customGasSettings.maxPriorityFeePerGas.getD
         (BnMultiplyByFraction (txParams.maxPriorityFeePerGas.getD 0) incrementNumerator 10)) })
  else
    ({ gasPrice := txParams.gasPrice },
     { gas := newGas,
       gasPrice := some (customGasSettings.gasPrice.getD
         (BnMultiplyByFraction (txParams.gasPrice.getD 0) incrementNumerator 10)) })

/-- The JS object spread of newGasParams over the original txParams in
createSpeedUpTransaction: keys present in newGasParams override. -/
def mergeNewGasParams (tp : TxParams) (ngp : CustomGasSettings) : TxParams :=
  { tp with
    gas := ngp.gas <|> tp.gas,
    gasPrice := ngp.gasPrice <|> tp.gasPrice,
    maxFeePerGas := ngp.maxFeePerGas <|> tp.maxFeePerGas,
    maxPriorityFeePerGas := ngp.maxPriorityFeePerGas <|> tp.maxPriorityFeePerGas }

/-- The record createCancelTransaction builds (index.js lines 716-728): a
zero-value transfer back to the sender at the original nonce, with bumped or
overridden fees, a simple-send gas limit by default, and the
previousGasParams snapshot; generated already approved. -/
def cancelTxMeta (s : CtrlState) (originalTxMeta : TxMeta)
    (customGasSettings : CustomGasSettings) (estimatedBaseFee : Option Nat) : TxMeta :=
  { id := s.nextId, status := .approved, type_ := .cancel,
    txParams := mergeNewGasParams
      { from_ := originalTxMeta.txParams.from_,
        to_ := some originalTxMeta.txParams.from_,
        nonce := originalTxMeta.txParams.nonce,
        value := some "0x0" }
      (generateNewGasParams originalTxMeta
        { customGasSettings with
          gasLimit := some (customGasSettings.gasLimit.getD GAS_LIMITS_SIMPLE) } 11).2,
    previousGasParams := some (generateNewGasParams originalTxMeta
      { customGasSettings with
        gasLimit := some (customGasSettings.gasLimit.getD GAS_LIMITS_SIMPLE) } 11).1,
    loadingDefaults := false, estimatedBaseFee := estimatedBaseFee }

/-- Embeds createCancelTransaction (index.js lines 696-737): stores the
cancel record and immediately runs it through approveTransaction. -/
def createCancelTransaction (env : ApproveEnv) (s : CtrlState) (originalTxId : Nat)
    (customGasSettings : CustomGasSettings) (estimatedBaseFee : Option Nat) :
    CtrlState × Except TxErr Nat :=
  match getTransaction s originalTxId with
  | none => (s, .error (.external "TypeError"))
  | some originalTxMeta =>
    let r := approveTransaction env
      { s with
        txs := s.txs ++ [cancelTxMeta s originalTxMeta customGasSettings estimatedBaseFee],
        nextId := s.nextId + 1 } s.nextId
    (r.state, r.result.map fun _ => s.nextId)

/-- The record createSpeedUpTransaction builds (index.js lines 762-771): the
original txParams with the new gas params spread over them, at the original
nonce, plus the previousGasParams snapshot; generated already approved. -/
def speedUpTxMeta (s : CtrlState) (originalTxMeta : TxMeta)
    (customGasSettings : CustomGasSettings) (estimatedBaseFee : Option Nat) : TxMeta :=
  { id := s.nextId, status := .approved, type_ := .retry,
    txParams := mergeNewGasParams originalTxMeta.txParams
      (generateNewGasParams originalTxMeta customGasSettings 11).2,
    previousGasParams := some (generateNewGasParams originalTxMeta customGasSettings 11).1,
    loadingDefaults := false, estimatedBaseFee := estimatedBaseFee }

/-- Embeds createSpeedUpTransaction (index.js lines 749-780): stores the
speed-up record and immediately runs it through approveTransaction. -/
def createSpeedUpTransaction (env : ApproveEnv) (s : CtrlState) (originalTxId : Nat)
    (customGasSettings : CustomGasSettings) (estimatedBaseFee : Option Nat) :
    CtrlState × Except TxErr Nat :=
  match getTransaction s originalTxId with
  | none => (s, .error (.external "TypeError"))
  | some originalTxMeta =>
    let r := approveTransaction env
      { s with
        txs := s.txs ++ [speedUpTxMeta s originalTxMeta customGasSettings estimatedBaseFee],
        nextId := s.nextId + 1 } s.nextId
    (r.state, r.result.map fun _ => s.nextId)

theorem add0x_eq_of_startsWith (s : String) (h : has0x s = true) :
    add0x s = s := by
  unfold add0x
  rw [if_pos h]

theorem approve_nonce_carry (env : ApproveEnv) (s : CtrlState) (txId : Nat) (m : TxMeta)
    (ns : String) (hni : s.inProcessOfSigning.contains txId = false)
    (hm : getTransaction s txId = some m) (hprev : m.previousGasParams.isSome = true)
    (hcust : m.customNonceValue = none) (hn : m.txParams.nonce = some ns)
    (hpre : has0x ns = true) :
    ∃ m2, getTransaction (approveTransaction env s txId).state txId = some m2 ∧
      m2.txParams.nonce = some ns := by
  obtain ⟨m2, hm2, _, hdisj⟩ := approveTransaction_nonce env s txId m hni hm
  refine ⟨m2, hm2, ?_⟩
  rcases hdisj with h | ⟨k, hk, h⟩
  · rw [h, hn]
  · rw [h]
    simp [chosenNonce, hcust, hprev, hn, add0x_eq_of_startsWith ns hpre]

theorem find?_append_fresh_i (l : List TxMeta) (m : TxMeta) (i : Nat) (hmi : m.id = i)
    (hfresh : ∀ t ∈ l, t.id ≠ i) :
    (l ++ [m]).find? (fun t => t.id == i) = some m := by
  subst hmi
  exact find?_append_fresh l m hfresh

/-- C2: createCancelTransaction and createSpeedUpTransaction produce a
stored record whose txParams.nonce equals the original record's nonce, and
approveTransaction, seeing previousGasParams on a record with no
customNonceValue, writes back that record's own nonce for every nextNonce k
the lock could deliver — never the freshly computed one. -/
theorem replaceByFee_nonce_reuse :
    (∀ (env : ApproveEnv) (s : CtrlState) (origId : Nat) (custom : CustomGasSettings)
       (ebf : Option Nat) (orig : TxMeta) (ns : String),
       getTransaction s origId = some orig →
       orig.txParams.nonce = some ns → has0x ns = true →
       (∀ t ∈ s.txs, t.id ≠ s.nextId) →
       s.inProcessOfSigning.contains s.nextId = false →
       ∃ m, getTransaction (createCancelTransaction env s origId custom ebf).1 s.nextId =
           some m ∧ m.txParams.nonce = some ns) ∧
    (∀ (env : ApproveEnv) (s : CtrlState) (origId : Nat) (custom : CustomGasSettings)
       (ebf : Option Nat) (orig : TxMeta) (ns : String),
       getTransaction s origId = some orig →
       orig.txParams.nonce = some ns → has0x ns = true →
       (∀ t ∈ s.txs, t.id ≠ s.nextId) →
       s.inProcessOfSigning.contains s.nextId = false →
       ∃ m, getTransaction (createSpeedUpTransaction env s origId custom ebf).1 s.nextId =
           some m ∧ m.txParams.nonce = some ns) ∧
    (∀ (env : ApproveEnv) (s : CtrlState) (txId : Nat) (m : TxMeta) (ns : String) (k : Nat),
       s.inProcessOfSigning.contains txId = false →
       getTransaction s txId = some m →
       m.previousGasParams.isSome = true → m.customNonceValue = none →
       m.txParams.nonce = some ns → has0x ns = true →
       env.lockOutcome = .ok k →
       ∃ m2, getTransaction (approveTransaction env s txId).state txId = some m2 ∧
         m2.txParams.nonce = some ns) := by
  refine ⟨?_, ?_, ?_⟩
  · intro env s origId custom ebf orig ns hm hn hpre hfresh hni
    unfold createCancelTransaction
    rw [hm]
    dsimp only
    exact approve_nonce_carry env _ s.nextId (cancelTxMeta s orig custom ebf) ns hni
      (find?_append_fresh_i s.txs _ s.nextId rfl hfresh) rfl rfl hn hpre
  · intro env s origId custom ebf orig ns hm hn hpre hfresh hni
    unfold createSpeedUpTransaction
    rw [hm]
    dsimp only
    exact approve_nonce_carry env _ s.nextId (speedUpTxMeta s orig custom ebf) ns hni
      (find?_append_fresh_i s.txs _ s.nextId rfl hfresh) rfl rfl hn hpre
  · intro env s txId m ns k hni hm hprev hcust hn hpre _
    exact approve_nonce_carry env s txId m ns hni hm hprev hcust hn hpre

/-- Original legacy transaction for the C2 witness, at nonce 0x5. -/
def sC2 : CtrlState :=
  { txs := [{ id := 1, status := .submitted,
              txParams := { from_ := "0xa", nonce := some "0x5", gasPrice := some 100,
                            gas := some 21000 } }],
    nextId := 2 }

/-- C2 witness: concrete cancel and speed-up runs both store record 2 at the
original nonce 0x5, and a previousGasParams record approved with nextNonce 9
keeps its own nonce 0x7. -/
theorem replaceByFee_nonce_reuse_witness :
    (∃ m, getTransaction (createCancelTransaction {} sC2 1 {} none).1 2 = some m ∧
      m.txParams.nonce = some "0x5") ∧
    (∃ m, getTransaction (createSpeedUpTransaction {} sC2 1 {} none).1 2 = some m ∧
      m.txParams.nonce = some "0x5") ∧
    (∃ m2, getTransaction
        (approveTransaction { lockOutcome := .ok 9 }
          { txs := [{ id := 3, previousGasParams := some {},
                      txParams := { from_ := "0xa", nonce := some "0x7" } }] } 3).state 3 =
        some m2 ∧ m2.txParams.nonce = some "0x7") :=
  ⟨replaceByFee_nonce_reuse.1 {} sC2 1 {} none
      { id := 1, status := .submitted,
        txParams := { from_ := "0xa", nonce := some "0x5", gasPrice := some 100,
                      gas := some 21000 } } "0x5" rfl rfl rfl (by decide) rfl,
   replaceByFee_nonce_reuse.2.1 {} sC2 1 {} none
      { id := 1, status := .submitted,
        txParams := { from_ := "0xa", nonce := some "0x5", gasPrice := some 100,
                      gas := some 21000 } } "0x5" rfl rfl rfl (by decide) rfl,
   replaceByFee_nonce_reuse.2.2 { lockOutcome := .ok 9 }
      { txs := [{ id := 3, previousGasParams := some {},
                  txParams := { from_ := "0xa", nonce := some "0x7" } }] } 3
      { id := 3, previousGasParams := some {},
        txParams := { from_ := "0xa", nonce := some "0x7" } } "0x7" 9 rfl rfl rfl rfl rfl rfl rfl⟩

/-- The per-duplicate mutation of _markNonceDuplicatesDropped: stamp
replacedBy with the confirmed record's hash and drop the record. -/
def stampDropped (hash : Option String) (t : TxMeta) : TxMeta :=
  { t with replacedBy := hash, status := .dropped }

/-- One iteration of the _markNonceDuplicatesDropped loop (lines 1272-1282):
skip the confirmed record itself, else write replacedBy on the stored
duplicate (the in-place object write in the source lands in the store, since
the scanned list holds the stored objects) and drop it (_dropTransaction). -/
def dropReplacedStep (hash : Option String) (txId : Nat) (s : CtrlState) (other : TxMeta) :
    CtrlState :=
  if other.id == txId then s
  else
    setTxStatus
      { s with txs := updAt s.txs other.id fun t => { t with replacedBy := hash } }
      other.id .dropped

/-- Embeds _markNonceDuplicatesDropped (index.js lines 1261-1283): scan all
records sharing the confirmed record's (nonce, from) pair and drop every
other one, stamping replacedBy with the confirmed hash.  The source's
updateTransaction(txMeta) call inside the loop re-stores the confirmed
record unchanged (the receipt fields were already written through the shared
object) and is a no-op here. -/
def markNonceDuplicatesDropped (s : CtrlState) (txId : Nat) : CtrlState :=
  match getTransaction s txId with
  | none => s
  | some txMeta =>
    let sameNonceTxs := s.txs.filter fun t =>
      t.txParams.nonce == txMeta.txParams.nonce &&
      t.txParams.from_ == txMeta.txParams.from_
    if sameNonceTxs.isEmpty then s
    else sameNonceTxs.foldl (dropReplacedStep txMeta.hash txId) s

/-- Embeds confirmTransaction (index.js lines 960-1034): a no-op when the
record no longer exists; otherwise attaches the receipt (and the optional
baseFeePerGas), transitions the record to confirmed, and resolves nonce
duplicates.  The metrics and swap postTxBalance paths are elided. -/
def confirmTransaction (s : CtrlState) (txId : Nat) (txReceipt : TxReceipt)
    (baseFeePerGas : Option Nat) : CtrlState :=
  match getTransaction s txId with
  | none => s
  | some txMeta =>
    markNonceDuplicatesDropped
      (setTxStatus
        (updateTransaction s
          { txMeta with
            txReceipt := some txReceipt,
            baseFeePerGas := baseFeePerGas <|> txMeta.baseFeePerGas })
        txId .confirmed)
      txId

theorem getTransaction_dropStep (hash : Option String) (txId : Nat) (s : CtrlState)
    (o : TxMeta) (j : Nat) :
    getTransaction (dropReplacedStep hash txId s o) j =
      if o.id ≠ txId ∧ o.id = j then (getTransaction s j).map (stampDropped hash)
      else getTransaction s j := by
  unfold dropReplacedStep
  by_cases ho : o.id = txId
  · have hb : (o.id == txId) = true := by simpa using ho
    rw [if_pos hb, if_neg (by simp [ho])]
  · have hb : (o.id == txId) = false := by simpa using ho
    rw [if_neg (by simp [hb])]
    by_cases hj : o.id = j
    · subst hj
      rw [if_pos ⟨ho, rfl⟩]
      show (updAt (updAt s.txs o.id fun t => { t with replacedBy := hash }) o.id
        fun t => { t with status := TxStatus.dropped }).find? _ = _
      rw [find?_updAt_self _ o.id (fun t => { t with status := TxStatus.dropped })
        (fun t ht => ht),
        find?_updAt_self _ o.id (fun t => { t with replacedBy := hash }) (fun t ht => ht)]
      show _ = Option.map _ (s.txs.find? fun t => t.id == o.id)
      cases s.txs.find? fun t => t.id == o.id
      · rfl
      · rfl
    · rw [if_neg (by simp [hj])]
      show (updAt (updAt s.txs o.id fun t => { t with replacedBy := hash }) o.id
        fun t => { t with status := TxStatus.dropped }).find? _ = _
      rw [find?_updAt_ne _ o.id j (fun t => { t with status := TxStatus.dropped }) hj
        (fun t ht => ht),
        find?_updAt_ne _ o.id j (fun t => { t with replacedBy := hash }) hj (fun t ht => ht)]
      rfl

theorem getTransaction_foldl_dropStep (hash : Option String) (txId : Nat)
    (L : List TxMeta) (s : CtrlState) (j : Nat) :
    getTransaction (L.foldl (dropReplacedStep hash txId) s) j =
      if j ≠ txId ∧ j ∈ L.map TxMeta.id then
        (getTransaction s j).map (stampDropped hash)
      else getTransaction s j := by
  induction L generalizing s with
  | nil => simp
  | cons o L ih =>
    rw [List.foldl_cons, ih, getTransaction_dropStep]
    by_cases h1 : j = txId
    · rw [if_neg (fun h => h.1 h1 : ¬(j ≠ txId ∧ j ∈ List.map TxMeta.id L)),
        if_neg (fun h => h.1 (h.2.trans h1) : ¬(o.id ≠ txId ∧ o.id = j)),
        if_neg (fun h => h.1 h1 : ¬(j ≠ txId ∧ j ∈ List.map TxMeta.id (o :: L)))]
    · by_cases h2 : o.id = j
      · have hne : o.id ≠ txId := fun hx => h1 (h2.symm.trans hx)
        rw [if_pos (⟨hne, h2⟩ : o.id ≠ txId ∧ o.id = j)]
        have hmem : j ∈ (o :: L).map TxMeta.id := by
          rw [List.map_cons, ← h2]
          exact List.mem_cons_self _ _
        rw [if_pos (⟨h1, hmem⟩ : j ≠ txId ∧ j ∈ (o :: L).map TxMeta.id)]
        by_cases h3 : j ∈ L.map TxMeta.id
        · rw [if_pos (⟨h1, h3⟩ : j ≠ txId ∧ j ∈ L.map TxMeta.id), Option.map_map]
          have hcomp : stampDropped hash ∘ stampDropped hash = stampDropped hash :=
            funext fun t => rfl
          rw [hcomp]
        · rw [if_neg fun h => h3 h.2]
      · rw [if_neg (fun h => h2 h.2 : ¬(o.id ≠ txId ∧ o.id = j))]
        have hmem : (j ∈ (o :: L).map TxMeta.id) ↔ (j ∈ L.map TxMeta.id) := by
          rw [List.map_cons, List.mem_cons]
          constructor
          · rintro (hx | hx)
            · exact absurd hx.symm h2
            · exact hx
          · exact Or.inr
        by_cases h3 : j ∈ L.map TxMeta.id
        · rw [if_pos (⟨h1, h3⟩ : j ≠ txId ∧ j ∈ L.map TxMeta.id),
            if_pos (⟨h1, hmem.mpr h3⟩ : j ≠ txId ∧ j ∈ (o :: L).map TxMeta.id)]
        · rw [if_neg fun h => h3 h.2, if_neg fun h => h3 (hmem.mp h.2)]

theorem map_id_dropStep (hash : Option String) (txId : Nat) (s : CtrlState) (o : TxMeta) :
    (dropReplacedStep hash txId s o).txs.map TxMeta.id = s.txs.map TxMeta.id := by
  unfold dropReplacedStep
  by_cases ho : (o.id == txId) = true
  · rw [if_pos ho]
  · rw [if_neg ho]
    show (updAt (updAt s.txs o.id fun t => { t with replacedBy := hash }) o.id
      fun t => { t with status := TxStatus.dropped }).map TxMeta.id = _
    rw [map_id_updAt _ o.id (fun t => { t with status := TxStatus.dropped }) (fun t ht => ht),
      map_id_updAt _ o.id (fun t => { t with replacedBy := hash }) (fun t ht => ht)]

theorem map_id_foldl_dropStep (hash : Option String) (txId : Nat) (L : List TxMeta)
    (s : CtrlState) :
    ((L.foldl (dropReplacedStep hash txId) s).txs).map TxMeta.id = s.txs.map TxMeta.id := by
  induction L generalizing s with
  | nil => rfl
  | cons o L ih => rw [List.foldl_cons, ih, map_id_dropStep]

theorem markDup_getTransaction_self (s : CtrlState) (txId : Nat) (mC : TxMeta)
    (hm : getTransaction s txId = some mC) :
    getTransaction (markNonceDuplicatesDropped s txId) txId = some mC := by
  unfold markNonceDuplicatesDropped
  rw [hm]
  dsimp only
  split
  · exact hm
  · rw [getTransaction_foldl_dropStep, if_neg fun h => h.1 rfl]
    exact hm

theorem markDup_drops (s : CtrlState) (txId : Nat) (mC : TxMeta)
    (hm : getTransaction s txId = some mC)
    (hnodup : (s.txs.map TxMeta.id).Nodup) :
    ∀ t ∈ (markNonceDuplicatesDropped s txId).txs,
      t.id ≠ txId → t.txParams.nonce = mC.txParams.nonce →
      t.txParams.from_ = mC.txParams.from_ →
      t.status = .dropped ∧ t.replacedBy = mC.hash := by
  intro t ht htne hn hf
  unfold markNonceDuplicatesDropped at ht
  rw [hm] at ht
  dsimp only at ht
  revert ht
  split
  · rename_i hE
    intro ht
    exfalso
    have htL : t ∈ s.txs.filter (fun u =>
        u.txParams.nonce == mC.txParams.nonce && u.txParams.from_ == mC.txParams.from_) :=
      List.mem_filter.mpr ⟨ht, by simp [hn, hf]⟩
    rw [List.isEmpty_iff] at hE
    rw [hE] at htL
    cases htL
  · rename_i hE
    intro ht
    have hnodup3 : (((s.txs.filter fun u =>
        u.txParams.nonce == mC.txParams.nonce && u.txParams.from_ == mC.txParams.from_).foldl
          (dropReplacedStep mC.hash txId) s).txs.map TxMeta.id).Nodup := by
      rw [map_id_foldl_dropStep]
      exact hnodup
    have hfind : getTransaction ((s.txs.filter fun u =>
        u.txParams.nonce == mC.txParams.nonce && u.txParams.from_ == mC.txParams.from_).foldl
          (dropReplacedStep mC.hash txId) s) t.id = some t :=
      find?_eq_of_mem_nodup _ hnodup3 t ht
    rw [getTransaction_foldl_dropStep] at hfind
    by_cases hmem : t.id ∈ (s.txs.filter fun u =>
        u.txParams.nonce == mC.txParams.nonce &&
        u.txParams.from_ == mC.txParams.from_).map TxMeta.id
    · rw [if_pos ⟨htne, hmem⟩] at hfind
      obtain ⟨u, hu, hut⟩ := Option.map_eq_some'.mp hfind
      constructor
      · rw [← hut]
        rfl
      · rw [← hut]
        rfl
    · rw [if_neg fun h => hmem h.2] at hfind
      exfalso
      have htmem : t ∈ s.txs := mem_of_getTransaction _ _ _ hfind
      have htL : t ∈ s.txs.filter (fun u =>
          u.txParams.nonce == mC.txParams.nonce && u.txParams.from_ == mC.txParams.from_) :=
        List.mem_filter.mpr ⟨htmem, by simp [hn, hf]⟩
      exact hmem (List.mem_map_of_mem TxMeta.id htL)

theorem map_id_updateTransaction (s : CtrlState) (m2 : TxMeta) :
    (updateTransaction s m2).txs.map TxMeta.id = s.txs.map TxMeta.id :=
  map_id_updAt s.txs m2.id (fun _ => m2) (fun t ht => rfl)

theorem map_id_setTxStatus (s : CtrlState) (txId : Nat) (st : TxStatus) :
    (setTxStatus s txId st).txs.map TxMeta.id = s.txs.map TxMeta.id :=
  map_id_updAt s.txs txId (fun t => { t with status := st }) (fun t ht => ht)

/-- C3: confirmTransaction is a no-op when no record with the id exists;
otherwise it attaches the receipt, transitions the record to confirmed, and
transitions every other stored record sharing the confirmed record's
(sender, nonce) pair to dropped, with each such record's replacedBy field
set to the confirmed record's hash. -/
theorem confirmTransaction_correct (s : CtrlState) (txId : Nat) (receipt : TxReceipt)
    (bfee : Option Nat) (hnodup : (s.txs.map TxMeta.id).Nodup) :
    (getTransaction s txId = none → confirmTransaction s txId receipt bfee = s) ∧
    (∀ m, getTransaction s txId = some m →
      (∃ m2, getTransaction (confirmTransaction s txId receipt bfee) txId = some m2 ∧
        m2.status = .confirmed ∧ m2.txReceipt = some receipt) ∧
      (∀ t ∈ (confirmTransaction s txId receipt bfee).txs,
        t.id ≠ txId → t.txParams.nonce = m.txParams.nonce →
        t.txParams.from_ = m.txParams.from_ →
        t.status = .dropped ∧ t.replacedBy = m.hash)) := by
  constructor
  · intro h
    unfold confirmTransaction
    rw [h]
  · intro m hm
    have hid : m.id = txId := id_eq_of_getTransaction s txId m hm
    have hS2 : getTransaction
        (setTxStatus (updateTransaction s
          { m with
            txReceipt := some receipt,
            baseFeePerGas := bfee <|> m.baseFeePerGas })
          txId .confirmed) txId =
        some { m with
               txReceipt := some receipt,
               baseFeePerGas := bfee <|> m.baseFeePerGas,
               status := .confirmed } :=
      getTransaction_setTxStatus_self _ txId .confirmed
        { m with
          txReceipt := some receipt,
          baseFeePerGas := bfee <|> m.baseFeePerGas }
        (getTransaction_updateTransaction_self s
          { m with
            txReceipt := some receipt,
            baseFeePerGas := bfee <|> m.baseFeePerGas }
          txId hid (by rw [hm]; rfl))
    have hC : confirmTransaction s txId receipt bfee =
        markNonceDuplicatesDropped
          (setTxStatus (updateTransaction s
            { m with
              txReceipt := some receipt,
              baseFeePerGas := bfee <|> m.baseFeePerGas })
            txId .confirmed) txId := by
      unfold confirmTransaction
      rw [hm]
    rw [hC]
    have hnodup2 : (((setTxStatus (updateTransaction s
        { m with
          txReceipt := some receipt,
          baseFeePerGas := bfee <|> m.baseFeePerGas })
        txId .confirmed)).txs.map TxMeta.id).Nodup := by
      rw [map_id_setTxStatus, map_id_updateTransaction]
      exact hnodup
    constructor
    · exact ⟨_, markDup_getTransaction_self _ txId _ hS2, rfl, rfl⟩
    · intro t ht htne hn hf
      exact markDup_drops _ txId _ hS2 hnodup2 t ht htne hn hf

/-- Two-record store for the C3 witness: records 1 and 2 share sender 0xa
and nonce 0x5; record 1 carries the hash 0xabc and is about to confirm. -/
def sC3 : CtrlState :=
  { txs := [
      { id := 1, status := .submitted, hash := some "0xabc",
        txParams := { from_ := "0xa", nonce := some "0x5" } },
      { id := 2, status := .submitted,
        txParams := { from_ := "0xa", nonce := some "0x5" } }],
    nextId := 3 }

/-- The receipt attached in the C3 witness. -/
def rC3 : TxReceipt := { gasUsed := "0x5208", status := "0x1" }

/-- C3 witness: confirming record 1 attaches the receipt and confirms it,
and every other same-(sender, nonce) record is dropped with replacedBy set
to record 1's hash. -/
theorem confirmTransaction_correct_witness :
    (∃ m2, getTransaction (confirmTransaction sC3 1 rC3 none) 1 = some m2 ∧
      m2.status = .confirmed ∧ m2.txReceipt = some rC3) ∧
    (∀ t ∈ (confirmTransaction sC3 1 rC3 none).txs,
      t.id ≠ 1 → t.txParams.nonce = some "0x5" → t.txParams.from_ = "0xa" →
      t.status = .dropped ∧ t.replacedBy = some "0xabc") :=
  ⟨((confirmTransaction_correct sC3 1 rC3 none (by decide)).2
      { id := 1, status := .submitted, hash := some "0xabc",
        txParams := { from_ := "0xa", nonce := some "0x5" } } rfl).1,
   ((confirmTransaction_correct sC3 1 rC3 none (by decide)).2
      { id := 1, status := .submitted, hash := some "0xabc",
        txParams := { from_ := "0xa", nonce := some "0x5" } } rfl).2⟩

/-- Modelled from the spec: multiplyCurrencies from
shared/modules/conversion.utils is not under src/; the spec fixes fee
arithmetic as exact arbitrary-precision math, so addTenPercent
(src/ui/hooks/useIncrementedGasFees.js lines 16-24) multiplies the wei
value by 1.10 exactly. -/
def addTenPercent (hexWeiValue : ℚ) : ℚ := hexWeiValue * (11 / 10)

/-- Modelled from the spec: decGWEIToHexWEI from conversions.util is not
under src/; converting decimal gwei to wei multiplies by 10^9. -/
def decGWEIToHexWEI (decGwei : ℚ) : ℚ := decGwei * 1000000000

/-- Embeds getHighestIncrementedFee (useIncrementedGasFees.js lines 35-44):
the larger of the 10-percent-bumped original fee and the current medium
estimate converted to wei. -/
def getHighestIncrementedFee (originalFee currentEstimate : ℚ) : ℚ :=
  if decGWEIToHexWEI currentEstimate < addTenPercent originalFee then
    addTenPercent originalFee
  else decGWEIToHexWEI currentEstimate

/-- C4: the replace-by-fee fee computed by the useIncrementedGasFees hook is
exactly max(original fee x 1.10, medium estimate in wei), in exact
arbitrary-precision arithmetic; the hook-supplied custom settings are taken
verbatim by generateNewGasParams for every fee field (custom values win over
the internal bump); and for original fee 0xa (10 wei) with a medium
estimate of at most 0xb the bumped fee is at least 0xb (11 wei). -/
theorem bumpedFee_max (F E : ℚ) :
    getHighestIncrementedFee F E = max (F * (11 / 10)) (E * 1000000000) ∧
    (∀ (orig : TxMeta) (custom : CustomGasSettings) (c : Nat),
      isEIP1559Transaction orig = true → custom.maxFeePerGas = some c →
      (generateNewGasParams orig custom 11).2.maxFeePerGas = some c) ∧
    (∀ (orig : TxMeta) (custom : CustomGasSettings) (c : Nat),
      isEIP1559Transaction orig = true → custom.maxPriorityFeePerGas = some c →
      (generateNewGasParams orig custom 11).2.maxPriorityFeePerGas = some c) ∧
    (∀ (orig : TxMeta) (custom : CustomGasSettings) (c : Nat),
      isEIP1559Transaction orig = false → custom.gasPrice = some c →
      (generateNewGasParams orig custom 11).2.gasPrice = some c) ∧
    (decGWEIToHexWEI E ≤ 11 → 11 ≤ getHighestIncrementedFee 10 E) := by
  refine ⟨?_, ?_, ?_, ?_, ?_⟩
  · unfold getHighestIncrementedFee addTenPercent decGWEIToHexWEI
    rcases lt_or_le (E * 1000000000) (F * (11 / 10)) with h | h
    · rw [if_pos h, max_eq_left h.le]
    · rw [if_neg (not_lt.mpr h), max_eq_right h]
  · intro orig custom c h1559 hc
    simp [generateNewGasParams, h1559, hc]
  · intro orig custom c h1559 hc
    simp [generateNewGasParams, h1559, hc]
  · intro orig custom c h1559 hc
    simp [generateNewGasParams, h1559, hc]
  · intro h
    unfold decGWEIToHexWEI at h
    unfold getHighestIncrementedFee addTenPercent decGWEIToHexWEI
    rcases lt_or_le (E * 1000000000) ((10 : ℚ) * (11 / 10)) with h2 | h2
    · rw [if_pos h2]
      norm_num
    · rw [if_neg (not_lt.mpr h2)]
      linarith

/-- C4 witness: with original fee 0xa and a zero medium estimate the bumped
fee equals the exact maximum and is at least 0xb. -/
theorem bumpedFee_max_witness :
    getHighestIncrementedFee 10 0 = max ((10 : ℚ) * (11 / 10)) ((0 : ℚ) * 1000000000) ∧
    11 ≤ getHighestIncrementedFee 10 0 :=
  ⟨(bumpedFee_max 10 0).1, (bumpedFee_max 10 0).2.2.2.2 (by norm_num [decGWEIToHexWEI])⟩

end MetamaskTx
